import Mathlib

/-!
Shallow embedding of the EyyBack wallet ledger engine.

The definitions below are translated from the repository's source:
* `src/models/Wallet.js` — the canonical wallet model (methods `addFunds`,
  `deductFunds`, `requestCashOut`); monetary amounts are modelled as `Int`
  (currency minor units), Mongo's `findOneAndUpdate` conditional writes as
  single atomic state transitions, and a thrown error as an `Except.error`
  that leaves the stored state unchanged.
* `src/controllers/walletController.js` — the reconciliation callbacks
  (`handleTopUpCallback`, `handleCashOutCallback`), cash-out initiation
  (`initiateCashOut`), and the history endpoint (`getTransactionHistory`).
* `src/unnamed/part_017` and the wallet-model segment embedded in
  `src/routes/rides.js` — a legacy variant of the wallet model that stores
  deduction amounts negated (`amount: -amount`); embedded in the
  `VariantWallet` namespace.
-/

namespace EyyBack

/-- `transactionSchema.type` enum from `src/models/Wallet.js`:
`['TOPUP', 'PAYMENT', 'CASHOUT', 'REFUND']`. -/
inductive TxnType
  | TOPUP
  | PAYMENT
  | CASHOUT
  | REFUND
deriving DecidableEq, Repr

/-- `transactionSchema.status` enum from `src/models/Wallet.js`:
`['PENDING', 'COMPLETED', 'FAILED', 'CANCELLED']`. -/
inductive TxnStatus
  | PENDING
  | COMPLETED
  | FAILED
  | CANCELLED
deriving DecidableEq, Repr

/-- One embedded transaction entry (`transactionSchema`).  `seq` models the
`createdAt` timestamp in milliseconds (mongoose `timestamps: true`); it is
also the insertion time used by the history endpoint's comparator. -/
structure Txn where
  type : TxnType
  amount : Int
  status : TxnStatus
  referenceId : String
  seq : Nat
deriving DecidableEq, Repr

/-- The wallet document (`walletSchema`): current balance plus the embedded,
append-only `transactions` array. -/
structure Wallet where
  balance : Int
  transactions : List Txn
deriving DecidableEq, Repr

/-- A freshly initialized wallet (`initializeWallet` in
`src/controllers/walletController.js` creates `balance: 0, transactions: []`). -/
def emptyWallet : Wallet := { balance := 0, transactions := [] }

/-- Typed counterparts of the errors thrown by the wallet methods:
`'Amount must be positive'`, `'Insufficient wallet balance...'`, and the
mongoose ValidationError raised at `save()` when a schema validator fails. -/
inductive WalletError
  | InvalidAmount
  | InsufficientBalance
  | ValidationError
deriving DecidableEq, Repr

/-- `walletSchema.methods.addFunds` (`src/models/Wallet.js:131`): rejects
non-positive amounts, otherwise performs one atomic `findOneAndUpdate` that
increments `balance` by `amount` and pushes a COMPLETED entry
(`type: transactionData.type || 'TOPUP'`). -/
def addFunds (w : Wallet) (amount : Int) (ty : TxnType) (refId : String)
    (seq : Nat) : Except WalletError Wallet :=
  if amount ≤ 0 then .error .InvalidAmount
  else .ok
    { balance := w.balance + amount
      transactions := w.transactions ++
        [{ type := ty, amount := amount, status := .COMPLETED,
           referenceId := refId, seq := seq }] }

/-- `walletSchema.methods.deductFunds` (`src/models/Wallet.js:173`): rejects
non-positive amounts before any store call; re-reads the balance and throws
`Insufficient wallet balance` when `balance < amount`; otherwise one atomic
`findOneAndUpdate` guarded by `balance: { $gte: amount }` decrements the
balance and pushes a COMPLETED entry (`type: transactionData.type || 'PAYMENT'`). -/
def deductFunds (w : Wallet) (amount : Int) (ty : TxnType) (refId : String)
    (seq : Nat) : Except WalletError Wallet :=
  if amount ≤ 0 then .error .InvalidAmount
  else if w.balance < amount then .error .InsufficientBalance
  else .ok
    { balance := w.balance - amount
      transactions := w.transactions ++
        [{ type := ty, amount := amount, status := .COMPLETED,
           referenceId := refId, seq := seq }] }

/-- `walletSchema.methods.requestCashOut` (`src/models/Wallet.js:219`): rejects
non-positive amounts; one atomic `findOneAndUpdate` guarded by
`balance: { $gte: amount }` that decrements the balance and pushes a PENDING
CASHOUT entry (the pessimistic hold). -/
def requestCashOut (w : Wallet) (amount : Int) (refId : String)
    (seq : Nat) : Except WalletError Wallet :=
  if amount ≤ 0 then .error .InvalidAmount
  else if w.balance < amount then .error .InsufficientBalance
  else .ok
    { balance := w.balance - amount
      transactions := w.transactions ++
        [{ type := .CASHOUT, amount := amount, status := .PENDING,
           referenceId := refId, seq := seq }] }

/-- The PENDING-TOPUP record pushed by `initiateTopUp`
(`src/controllers/walletController.js:155`-`174`): after the provider accepted
the invoice, a PENDING TOPUP entry is appended with no balance change
(`initiateTopUp` validates `amount < 1` as invalid first). -/
def createPendingTopUp (w : Wallet) (amount : Int) (refId : String)
    (seq : Nat) : Except WalletError Wallet :=
  if amount < 1 then .error .InvalidAmount
  else .ok
    { w with transactions := w.transactions ++
        [{ type := .TOPUP, amount := amount, status := .PENDING,
           referenceId := refId, seq := seq }] }

/-- Update the first element of the list satisfying `p` by `f`, leaving the
rest unchanged — Mongo's positional `transactions.$` update targeted at the
entry the controller located via `transactions.find(...)`. -/
def updateFirst (txns : List Txn) (p : Txn → Bool) (f : Txn → Txn) : List Txn :=
  match txns with
  | [] => []
  | t :: ts => if p t then f t :: ts else t :: updateFirst ts p f

/-- HTTP-level outcomes of the two webhook handlers in
`src/controllers/walletController.js`.  Everything except `notFound` is a
success-shaped `res.json({ success: true, ... })` response (`notFound` is the
404 branch). -/
inductive CallbackResult
  | paymentCompleted
  | paymentFailed
  | cashoutCompleted
  | cashoutFailedRefunded
  | alreadyProcessed
  | notFound
deriving DecidableEq, Repr

/-- `handleTopUpCallback` (`src/controllers/walletController.js:189`):
locate the transaction by reference id; if it is still PENDING, a
PAID/COMPLETED signal atomically sets the status to COMPLETED and increments
the balance by the entry amount (`findOneAndUpdate` guarded by
`'transactions.status': 'PENDING'`), an EXPIRED/FAILED signal sets FAILED with
no balance change; any already-terminal entry (or unrecognized signal) falls
through to the `already_processed` success response with no write. -/
def handleTopUpCallback (w : Wallet) (refId : String) (signal : String) :
    Wallet × CallbackResult :=
  match w.transactions.find? (fun t => t.referenceId == refId) with
  | none => (w, .notFound)
  | some tx =>
    if tx.status = .PENDING then
      if signal = "PAID" ∨ signal = "COMPLETED" then
        let txns := updateFirst w.transactions
          (fun t => t.referenceId == refId)
          (fun t => { t with status := .COMPLETED })
        ({ balance := w.balance + tx.amount, transactions := txns },
         .paymentCompleted)
      else if signal = "EXPIRED" ∨ signal = "FAILED" then
        let txns := updateFirst w.transactions
          (fun t => t.referenceId == refId)
          (fun t => { t with status := .FAILED })
        ({ w with transactions := txns }, .paymentFailed)
      else (w, .alreadyProcessed)
    else (w, .alreadyProcessed)

/-- `handleCashOutCallback` (`src/controllers/walletController.js:599`):
locate the CASHOUT transaction by reference id
(`t.referenceId === referenceId && t.type === 'CASHOUT'`); if it is still
PENDING, a COMPLETED/SUCCESS signal only flips the status to COMPLETED (the
hold already deducted the balance), a FAILED/REJECTED signal atomically flips
the status to FAILED and refunds the held amount
(`$inc: { balance: transaction.amount }` in the same update); any
already-terminal entry falls through to `already_processed`. -/
def handleCashOutCallback (w : Wallet) (refId : String) (signal : String) :
    Wallet × CallbackResult :=
  match w.transactions.find?
      (fun t => t.referenceId == refId && t.type == TxnType.CASHOUT) with
  | none => (w, .notFound)
  | some tx =>
    if tx.status = .PENDING then
      if signal = "COMPLETED" ∨ signal = "SUCCESS" then
        let txns := updateFirst w.transactions
          (fun t => t.referenceId == refId && t.type == TxnType.CASHOUT)
          (fun t => { t with status := .COMPLETED })
        ({ w with transactions := txns }, .cashoutCompleted)
      else if signal = "FAILED" ∨ signal = "REJECTED" then
        let txns := updateFirst w.transactions
          (fun t => t.referenceId == refId && t.type == TxnType.CASHOUT)
          (fun t => { t with status := .FAILED })
        ({ balance := w.balance + tx.amount, transactions := txns },
         .cashoutFailedRefunded)
      else (w, .alreadyProcessed)
    else (w, .alreadyProcessed)

/-- One invocation of the engine, as the claims enumerate them: the wallet
methods of `src/models/Wallet.js` plus the two reconciliation callbacks and
the PENDING-TOPUP record written by `initiateTopUp`. -/
inductive WalletOp
  | opAddFunds (amount : Int) (ty : TxnType) (refId : String) (seq : Nat)
  | opDeductFunds (amount : Int) (ty : TxnType) (refId : String) (seq : Nat)
  | opRequestCashOut (amount : Int) (refId : String) (seq : Nat)
  | opCreatePendingTopUp (amount : Int) (refId : String) (seq : Nat)
  | opTopUpCallback (refId : String) (signal : String)
  | opCashOutCallback (refId : String) (signal : String)
deriving DecidableEq, Repr

/-- A thrown engine error leaves the stored wallet untouched. -/
def orUnchanged (w : Wallet) : Except WalletError Wallet → Wallet
  | .ok w' => w'
  | .error _ => w

/-- Apply one engine operation to the stored wallet; a rejected operation
(thrown error / 4xx response) leaves the wallet unchanged. -/
def applyOp (w : Wallet) : WalletOp → Wallet
  | .opAddFunds a ty r s => orUnchanged w (addFunds w a ty r s)
  | .opDeductFunds a ty r s => orUnchanged w (deductFunds w a ty r s)
  | .opRequestCashOut a r s => orUnchanged w (requestCashOut w a r s)
  | .opCreatePendingTopUp a r s => orUnchanged w (createPendingTopUp w a r s)
  | .opTopUpCallback r sig => (handleTopUpCallback w r sig).1
  | .opCashOutCallback r sig => (handleCashOutCallback w r sig).1

/-- Run a sequence of engine operations left to right. -/
def runOps (w : Wallet) (ops : List WalletOp) : Wallet :=
  ops.foldl applyOp w

/-- Credit direction implied by the entry type (spec §3: TOPUP and REFUND add
to the balance). -/
def isCreditType (t : TxnType) : Bool :=
  t == .TOPUP || t == .REFUND

/-- Debit direction implied by the entry type (PAYMENT and CASHOUT subtract
from the balance). -/
def isDebitType (t : TxnType) : Bool :=
  t == .PAYMENT || t == .CASHOUT

/-- Sum of the amounts of COMPLETED credit-typed entries. -/
def completedCredits (txns : List Txn) : Int :=
  ((txns.filter
    (fun t => isCreditType t.type && t.status == TxnStatus.COMPLETED)).map
      Txn.amount).sum

/-- Sum of the amounts of COMPLETED debit-typed entries. -/
def completedDebits (txns : List Txn) : Int :=
  ((txns.filter
    (fun t => isDebitType t.type && t.status == TxnStatus.COMPLETED)).map
      Txn.amount).sum

/-- Sum of the amounts of CASHOUT entries still PENDING (unresolved holds). -/
def pendingCashoutHolds (txns : List Txn) : Int :=
  ((txns.filter
    (fun t => t.type == TxnType.CASHOUT && t.status == TxnStatus.PENDING)).map
      Txn.amount).sum

/-- The balance the ledger log accounts for: Σ(COMPLETED credits) −
Σ(COMPLETED debits) − Σ(PENDING cash-out holds). -/
def ledgerBalance (txns : List Txn) : Int :=
  completedCredits txns - completedDebits txns - pendingCashoutHolds txns

/-- Reference ids handed to `requestCashOut` operations in a sequence. -/
def cashoutRefs (ops : List WalletOp) : List String :=
  ops.filterMap fun
    | .opRequestCashOut _ r _ => some r
    | _ => none

/-- Reference ids targeted by top-up callbacks in a sequence. -/
def topupCallbackRefs (ops : List WalletOp) : List String :=
  ops.filterMap fun
    | .opTopUpCallback r _ => some r
    | _ => none

/-- Per-operation discipline matching every call site in the repository:
`addFunds` is only invoked with the credit type TOPUP (default, and
`src/unnamed/part_010`, `src/unnamed/part_018` pass `type: 'TOPUP'`), and
`deductFunds` only with debit types (default PAYMENT; all callers pass
`type: 'PAYMENT'`). -/
def opTyped : WalletOp → Bool
  | .opAddFunds _ ty _ _ => isCreditType ty
  | .opDeductFunds _ ty _ _ => isDebitType ty
  | _ => true

/-- A sequence of engine operations as they arise in the deployed system:
operations are typed as at their call sites, and top-up callbacks (keyed by
Xendit invoice external ids) never target a payout reference id handed out by
`requestCashOut` (`handleTopUpCallback` does not filter on entry type, so an
aliased reference id would route a top-up signal to a cash-out hold). -/
def WellFormedOps (ops : List WalletOp) : Prop :=
  (∀ op ∈ ops, opTyped op = true) ∧
    ∀ r ∈ topupCallbackRefs ops, r ∉ cashoutRefs ops

/-- Error taxonomy of `initiateCashOut`
(`src/controllers/walletController.js:372`), in source order: the 403
driver-role gate, the two 400 amount validations, the 400 bank-details
validation, the 400 insufficient-balance check, and the 500s for a failed
provider payout call or a failed atomic hold. -/
inductive CashOutError
  | notDriver
  | invalidAmount
  | belowMinimum
  | invalidBank
  | insufficientBalance
  | payoutFailed
  | internalError
deriving DecidableEq, Repr

/-- `initiateCashOut` (`src/controllers/walletController.js:372`): checks, in
order, `req.user.role !== 'driver'` (403 before anything else), `amount < 1`,
`amount < 100` (minimum cash-out ₱100), `validateBankDetails`, then
`availableBalance = wallet.balance` against the amount; only then calls
`xenditService.createPayout` — modelled by the `payoutResult` argument, `none`
standing for a failed or timed-out provider call — and only on provider
success takes the hold via `wallet.requestCashOut` with the provider's
`payout.reference_id`.  Returns the post-state wallet together with the
response (`referenceId`) or the error. -/
def initiateCashOut (w : Wallet) (role : String) (amount : Int)
    (bankValid : Bool) (payoutResult : Option String) (seq : Nat) :
    Wallet × Except CashOutError String :=
  if role ≠ "driver" then (w, .error .notDriver)
  else if amount < 1 then (w, .error .invalidAmount)
  else if amount < 100 then (w, .error .belowMinimum)
  else if ¬bankValid then (w, .error .invalidBank)
  else if w.balance < amount then (w, .error .insufficientBalance)
  else
    match payoutResult with
    | none => (w, .error .payoutFailed)
    | some ref =>
      match requestCashOut w amount ref seq with
      | .error _ => (w, .error .internalError)
      | .ok w' => (w', .ok ref)

/-- Stable insertion step for the history sort: place `t` before the first
entry with a strictly older timestamp, i.e. after every entry with a newer or
equal timestamp.  This realizes the ECMAScript-mandated stable
`sort((a, b) => dateB - dateA)` of `getTransactionHistory`
(`src/controllers/walletController.js:831`). -/
def insertDesc (t : Txn) : List Txn → List Txn
  | [] => [t]
  | u :: us => if u.seq < t.seq then t :: u :: us else u :: insertDesc t us

/-- The stable descending-by-`createdAt` sort performed by
`getTransactionHistory`: equal-timestamp entries keep their array
(insertion) order. -/
def sortTransactions (txns : List Txn) : List Txn :=
  txns.foldl (fun acc t => insertDesc t acc) []

/-- `getTransactionHistory` (`src/controllers/walletController.js:819`):
sorts the wallet's transactions newest-first with the stable comparator,
applies `skip = (page − 1) * limit` and `limit`, and responds with the bare
array of formatted entries — the response carries no total entry count. -/
def getTransactionHistory (w : Wallet) (page limit : Nat) : List Txn :=
  ((sortTransactions w.transactions).drop ((page - 1) * limit)).take limit

namespace VariantWallet

/-- Persistence step of the legacy wallet-model variant
(`src/unnamed/part_017` and the wallet segment embedded in
`src/routes/rides.js`).  Its transaction schema declares
`amount: { type: Number, required: true, min: 0 }` (`part_017:364`,
`rides.js:174`); mongoose runs this validator on the embedded documents at
`this.save()`, so saving a wallet holding an entry with a negative amount
throws a ValidationError and persists nothing. -/
def save (w : Wallet) : Except WalletError Wallet :=
  if ∀ t ∈ w.transactions, 0 ≤ t.amount then .ok w
  else .error .ValidationError

/-- Legacy `deductFunds` (`src/unnamed/part_017:470` and
`src/routes/rides.js:257`): after an application-level balance check it pushes
the deduction with `amount: -amount` — "Store as negative for deductions" —
and persists via `this.save()`, which runs the schema's `min: 0`
validation. -/
def deductFunds (w : Wallet) (amount : Int) (ty : TxnType) (refId : String)
    (seq : Nat) : Except WalletError Wallet :=
  if amount ≤ 0 then .error .InvalidAmount
  else if w.balance < amount then .error .InsufficientBalance
  else save
    { balance := w.balance - amount
      transactions := w.transactions ++
        [{ type := ty, amount := -amount, status := .COMPLETED,
           referenceId := refId, seq := seq }] }

/-- Legacy `requestCashOut` (`src/unnamed/part_017:496` and
`src/routes/rides.js:283`): pushes the PENDING CASHOUT entry with
`amount: -amount` and persists via `this.save()`. -/
def requestCashOut (w : Wallet) (amount : Int) (refId : String)
    (seq : Nat) : Except WalletError Wallet :=
  if amount ≤ 0 then .error .InvalidAmount
  else if w.balance < amount then .error .InsufficientBalance
  else save
    { balance := w.balance - amount
      transactions := w.transactions ++
        [{ type := .CASHOUT, amount := -amount, status := .PENDING,
           referenceId := refId, seq := seq }] }

end VariantWallet

/-- Progress of one concurrent `deductFunds` caller (`src/models/Wallet.js:173`):
`idle` — has not yet performed the fresh `findById` balance check;
`ready` — the application-level check passed, the conditional
`findOneAndUpdate` is still outstanding; `done ok` — returned, with `ok = true`
for a successful deduction and `ok = false` for the insufficient-balance
rejection (from either the check or the atomic update). -/
inductive ThreadSt
  | idle
  | ready
  | done (ok : Bool)
deriving DecidableEq, Repr

/-- Shared state of `N` concurrent `deductFunds amount` callers racing on one
wallet: the wallet balance plus each caller's progress. -/
structure DebitSys where
  balance : Int
  threads : List ThreadSt
deriving DecidableEq, Repr

/-- Advance one caller by one step against the current balance.  The `idle`
step is the application-level check (`currentWallet.balance < amount` throws);
the `ready` step is the store's atomic conditional update
(`findOneAndUpdate` with `balance: { $gte: amount }`), which decides commit or
rejection at write time. -/
def stepThread (amount bal : Int) : ThreadSt → ThreadSt × Int
  | .idle => if bal < amount then (.done false, bal) else (.ready, bal)
  | .ready => if bal < amount then (.done false, bal) else (.done true, bal - amount)
  | .done ok => (.done ok, bal)

/-- Scheduler step: run one step of thread `i` (ids outside the system are
no-ops). -/
def stepSys (amount : Int) (s : DebitSys) (i : Nat) : DebitSys :=
  match s.threads[i]? with
  | none => s
  | some t =>
    let r := stepThread amount s.balance t
    { balance := r.2, threads := s.threads.set i r.1 }

/-- Run an arbitrary interleaving of caller steps. -/
def runSched (amount : Int) (s : DebitSys) (sched : List Nat) : DebitSys :=
  sched.foldl (stepSys amount) s

/-- Number of callers that finished with outcome `ok`. -/
def countDone (ts : List ThreadSt) (ok : Bool) : Nat :=
  ts.count (.done ok)

/-- The initial racing system: balance `(N − 1) * A`, `N` callers yet to run. -/
def initDebitSys (n : Nat) (amount : Int) : DebitSys :=
  { balance := ((n : Int) - 1) * amount, threads := List.replicate n .idle }

/-- Net effect of one entry on the ledger-accounted balance. -/
def contrib (t : Txn) : Int :=
  (if isCreditType t.type && t.status == TxnStatus.COMPLETED then t.amount else 0)
    - (if isDebitType t.type && t.status == TxnStatus.COMPLETED then t.amount else 0)
    - (if t.type == TxnType.CASHOUT && t.status == TxnStatus.PENDING then t.amount else 0)

theorem ledgerBalance_nil : ledgerBalance [] = 0 := rfl

theorem ledgerBalance_cons (t : Txn) (ts : List Txn) :
    ledgerBalance (t :: ts) = contrib t + ledgerBalance ts := by
  simp only [ledgerBalance, completedCredits, completedDebits, pendingCashoutHolds,
    contrib, List.filter_cons]
  split_ifs <;> simp <;> ring

theorem ledgerBalance_append_single (ts : List Txn) (t : Txn) :
    ledgerBalance (ts ++ [t]) = ledgerBalance ts + contrib t := by
  induction ts with
  | nil => simp [ledgerBalance_cons, ledgerBalance_nil]
  | cons u us ih => simp [ledgerBalance_cons, ih]; ring

theorem mem_updateFirst {txns : List Txn} {p : Txn → Bool} {f : Txn → Txn}
    {t' : Txn} (h : t' ∈ updateFirst txns p f) :
    t' ∈ txns ∨ ∃ t ∈ txns, p t = true ∧ t' = f t := by
  induction txns with
  | nil => simp [updateFirst] at h
  | cons u us ih =>
    simp only [updateFirst] at h
    by_cases hu : p u = true
    · rw [if_pos hu] at h
      rcases List.mem_cons.mp h with h1 | h1
      · exact Or.inr ⟨u, List.mem_cons_self u us, hu, h1⟩
      · exact Or.inl (List.mem_cons_of_mem u h1)
    · rw [if_neg hu] at h
      rcases List.mem_cons.mp h with h1 | h1
      · exact Or.inl (h1 ▸ List.mem_cons_self u us)
      · rcases ih h1 with h2 | ⟨t, ht, hpt, hft⟩
        · exact Or.inl (List.mem_cons_of_mem u h2)
        · exact Or.inr ⟨t, List.mem_cons_of_mem u ht, hpt, hft⟩

theorem ledgerBalance_updateFirst {txns : List Txn} {p : Txn → Bool}
    {f : Txn → Txn} {tx : Txn} (h : txns.find? p = some tx) :
    ledgerBalance (updateFirst txns p f) =
      ledgerBalance txns - contrib tx + contrib (f tx) := by
  induction txns with
  | nil => simp [List.find?] at h
  | cons u us ih =>
    by_cases hu : p u = true
    · rw [List.find?_cons_of_pos _ hu] at h
      injection h with h
      subst h
      simp only [updateFirst, if_pos hu, ledgerBalance_cons]
      ring
    · rw [List.find?_cons_of_neg _ (by simpa using hu)] at h
      simp only [updateFirst, if_neg hu, ledgerBalance_cons, ih h]
      ring

theorem find?_updateFirst {txns : List Txn} {p : Txn → Bool} {f : Txn → Txn}
    {tx : Txn} (h : txns.find? p = some tx)
    (hf : ∀ t, p (f t) = p t) :
    (updateFirst txns p f).find? p = some (f tx) := by
  induction txns with
  | nil => simp [List.find?] at h
  | cons u us ih =>
    by_cases hu : p u = true
    · rw [List.find?_cons_of_pos _ hu] at h
      injection h with h
      subst h
      simp only [updateFirst, if_pos hu]
      exact List.find?_cons_of_pos _ (by rw [hf]; exact hu)
    · rw [List.find?_cons_of_neg _ (by simpa using hu)] at h
      simp only [updateFirst, if_neg hu]
      rw [List.find?_cons_of_neg _ (by simpa using hu)]
      exact ih h

theorem credit_not_debit {ty : TxnType} (h : isCreditType ty = true) :
    isDebitType ty = false := by
  cases ty <;> simp_all [isCreditType, isDebitType]

theorem credit_not_cashout {ty : TxnType} (h : isCreditType ty = true) :
    ty ≠ TxnType.CASHOUT := by
  cases ty <;> simp_all [isCreditType]

theorem contrib_completed_credit {ty : TxnType} {a : Int} {r : String} {s : Nat}
    (h : isCreditType ty = true) :
    contrib { type := ty, amount := a, status := .COMPLETED,
              referenceId := r, seq := s } = a := by
  cases ty <;> simp_all [contrib, isCreditType, isDebitType]

theorem contrib_completed_debit {ty : TxnType} {a : Int} {r : String} {s : Nat}
    (h : isDebitType ty = true) :
    contrib { type := ty, amount := a, status := .COMPLETED,
              referenceId := r, seq := s } = -a := by
  cases ty <;> simp_all [contrib, isCreditType, isDebitType]

theorem contrib_pending_cashout {a : Int} {r : String} {s : Nat} :
    contrib { type := .CASHOUT, amount := a, status := .PENDING,
              referenceId := r, seq := s } = -a := by
  simp [contrib, isCreditType, isDebitType]

theorem contrib_pending_topup {a : Int} {r : String} {s : Nat} :
    contrib { type := .TOPUP, amount := a, status := .PENDING,
              referenceId := r, seq := s } = 0 := by
  simp [contrib, isCreditType, isDebitType]

theorem contrib_failed (t : Txn) (h : t.status = .FAILED) :
    contrib t = 0 := by
  cases t; subst h
  simp [contrib]

/-- The inductive invariant tying a wallet's stored `balance` to its
transaction log, for runs whose top-up callbacks target the reference ids in
`bad` only ever for non-cash-out entries. -/
structure InvW (bad : List String) (w : Wallet) : Prop where
  bal_eq : w.balance = ledgerBalance w.transactions
  bal_nonneg : 0 ≤ w.balance
  amounts_pos : ∀ t ∈ w.transactions, 0 < t.amount
  pending_ty : ∀ t ∈ w.transactions, t.status = .PENDING →
    t.type = .TOPUP ∨ t.type = .CASHOUT
  cashout_ref : ∀ t ∈ w.transactions, t.type = .CASHOUT →
    t.status = .PENDING → t.referenceId ∉ bad

theorem invW_empty (bad : List String) : InvW bad emptyWallet := by
  refine ⟨rfl, le_refl 0, ?_, ?_, ?_⟩ <;> intro t ht <;>
    simp [emptyWallet] at ht

theorem invW_addFunds {bad : List String} {w : Wallet} (hw : InvW bad w)
    {a : Int} {ty : TxnType} {r : String} {s : Nat}
    (hty : isCreditType ty = true) :
    InvW bad (orUnchanged w (addFunds w a ty r s)) := by
  unfold addFunds
  by_cases ha : a ≤ 0
  · rw [if_pos ha]; exact hw
  · rw [if_neg ha]
    push_neg at ha
    refine ⟨?_, ?_, ?_, ?_, ?_⟩
    · show w.balance + a = ledgerBalance (w.transactions ++ [_])
      rw [ledgerBalance_append_single, contrib_completed_credit hty, hw.bal_eq]
    · show 0 ≤ w.balance + a
      have := hw.bal_nonneg; omega
    · intro t ht
      rcases List.mem_append.mp ht with h | h
      · exact hw.amounts_pos t h
      · simp at h; subst h; exact ha
    · intro t ht hp
      rcases List.mem_append.mp ht with h | h
      · exact hw.pending_ty t h hp
      · simp at h; subst h; simp at hp
    · intro t ht hco hp
      rcases List.mem_append.mp ht with h | h
      · exact hw.cashout_ref t h hco hp
      · simp at h; subst h; simp at hp

theorem invW_deductFunds {bad : List String} {w : Wallet} (hw : InvW bad w)
    {a : Int} {ty : TxnType} {r : String} {s : Nat}
    (hty : isDebitType ty = true) :
    InvW bad (orUnchanged w (deductFunds w a ty r s)) := by
  unfold deductFunds
  by_cases ha : a ≤ 0
  · rw [if_pos ha]; exact hw
  · rw [if_neg ha]
    by_cases hb : w.balance < a
    · rw [if_pos hb]; exact hw
    · rw [if_neg hb]
      push_neg at ha hb
      refine ⟨?_, ?_, ?_, ?_, ?_⟩
      · show w.balance - a = ledgerBalance (w.transactions ++ [_])
        rw [ledgerBalance_append_single, contrib_completed_debit hty, hw.bal_eq]
        ring
      · show 0 ≤ w.balance - a
        omega
      · intro t ht
        rcases List.mem_append.mp ht with h | h
        · exact hw.amounts_pos t h
        · simp at h; subst h; exact ha
      · intro t ht hp
        rcases List.mem_append.mp ht with h | h
        · exact hw.pending_ty t h hp
        · simp at h; subst h; simp at hp
      · intro t ht hco hp
        rcases List.mem_append.mp ht with h | h
        · exact hw.cashout_ref t h hco hp
        · simp at h; subst h; simp at hp

theorem invW_requestCashOut {bad : List String} {w : Wallet} (hw : InvW bad w)
    {a : Int} {r : String} {s : Nat} (hr : r ∉ bad) :
    InvW bad (orUnchanged w (requestCashOut w a r s)) := by
  unfold requestCashOut
  by_cases ha : a ≤ 0
  · rw [if_pos ha]; exact hw
  · rw [if_neg ha]
    by_cases hb : w.balance < a
    · rw [if_pos hb]; exact hw
    · rw [if_neg hb]
      push_neg at ha hb
      refine ⟨?_, ?_, ?_, ?_, ?_⟩
      · show w.balance - a = ledgerBalance (w.transactions ++ [_])
        rw [ledgerBalance_append_single, contrib_pending_cashout, hw.bal_eq]
        ring
      · show 0 ≤ w.balance - a
        omega
      · intro t ht
        rcases List.mem_append.mp ht with h | h
        · exact hw.amounts_pos t h
        · simp at h; subst h; exact ha
      · intro t ht hp
        rcases List.mem_append.mp ht with h | h
        · exact hw.pending_ty t h hp
        · simp at h; subst h; exact Or.inr rfl
      · intro t ht hco hp
        rcases List.mem_append.mp ht with h | h
        · exact hw.cashout_ref t h hco hp
        · simp at h; subst h; exact hr

theorem invW_createPendingTopUp {bad : List String} {w : Wallet}
    (hw : InvW bad w) {a : Int} {r : String} {s : Nat} :
    InvW bad (orUnchanged w (createPendingTopUp w a r s)) := by
  unfold createPendingTopUp
  by_cases ha : a < 1
  · rw [if_pos ha]; exact hw
  · rw [if_neg ha]
    push_neg at ha
    refine ⟨?_, hw.bal_nonneg, ?_, ?_, ?_⟩
    · show w.balance = ledgerBalance (w.transactions ++ [_])
      rw [ledgerBalance_append_single, contrib_pending_topup, hw.bal_eq]
      ring
    · intro t ht
      rcases List.mem_append.mp ht with h | h
      · exact hw.amounts_pos t h
      · simp at h; subst h
        show (0 : Int) < a
        omega
    · intro t ht hp
      rcases List.mem_append.mp ht with h | h
      · exact hw.pending_ty t h hp
      · simp at h; subst h; exact Or.inl rfl
    · intro t ht hco hp
      rcases List.mem_append.mp ht with h | h
      · exact hw.cashout_ref t h hco hp
      · simp at h; subst h; simp at hco

theorem contrib_eval (t : Txn) :
    contrib t =
      if t.status = TxnStatus.COMPLETED then
        (if isCreditType t.type = true then t.amount else -t.amount)
      else if t.status = TxnStatus.PENDING ∧ t.type = TxnType.CASHOUT then
        -t.amount
      else 0 := by
  obtain ⟨ty, a, st, r, s⟩ := t
  cases ty <;> cases st <;> simp [contrib, isCreditType, isDebitType]

theorem invW_topUpCallback {bad : List String} {w : Wallet} (hw : InvW bad w)
    {r sig : String} (hr : r ∈ bad) :
    InvW bad (handleTopUpCallback w r sig).1 := by
  unfold handleTopUpCallback
  cases hfind : w.transactions.find? (fun t => t.referenceId == r) with
  | none => exact hw
  | some tx =>
    have htxmem := List.mem_of_find?_eq_some hfind
    have htxref : tx.referenceId = r := by
      have := List.find?_some hfind
      simpa using this
    simp only []
    by_cases hpend : tx.status = TxnStatus.PENDING
    · have htop : tx.type = TxnType.TOPUP := by
        rcases hw.pending_ty tx htxmem hpend with h | h
        · exact h
        · exact absurd hr (htxref ▸ hw.cashout_ref tx htxmem h hpend)
      rw [if_pos hpend]
      by_cases hsig : sig = "PAID" ∨ sig = "COMPLETED"
      · rw [if_pos hsig]
        have hamt := hw.amounts_pos tx htxmem
        refine ⟨?_, ?_, ?_, ?_, ?_⟩
        · show w.balance + tx.amount = ledgerBalance (updateFirst _ _ _)
          rw [ledgerBalance_updateFirst hfind, hw.bal_eq]
          rw [contrib_eval tx, contrib_eval { tx with status := .COMPLETED }]
          simp [hpend, htop, isCreditType]
        · show 0 ≤ w.balance + tx.amount
          have := hw.bal_nonneg
          omega
        · intro t ht
          rcases mem_updateFirst ht with h | ⟨u, hu, _, hfu⟩
          · exact hw.amounts_pos t h
          · subst hfu
            exact hw.amounts_pos u hu
        · intro t ht hp
          rcases mem_updateFirst ht with h | ⟨u, hu, _, hfu⟩
          · exact hw.pending_ty t h hp
          · subst hfu
            simp at hp
        · intro t ht hco hp
          rcases mem_updateFirst ht with h | ⟨u, hu, _, hfu⟩
          · exact hw.cashout_ref t h hco hp
          · subst hfu
            simp at hp
      · rw [if_neg hsig]
        by_cases hsig2 : sig = "EXPIRED" ∨ sig = "FAILED"
        · rw [if_pos hsig2]
          refine ⟨?_, hw.bal_nonneg, ?_, ?_, ?_⟩
          · show w.balance = ledgerBalance (updateFirst _ _ _)
            rw [ledgerBalance_updateFirst hfind, hw.bal_eq]
            rw [contrib_eval tx, contrib_eval { tx with status := .FAILED }]
            simp [hpend, htop]
          · intro t ht
            rcases mem_updateFirst ht with h | ⟨u, hu, _, hfu⟩
            · exact hw.amounts_pos t h
            · subst hfu
              exact hw.amounts_pos u hu
          · intro t ht hp
            rcases mem_updateFirst ht with h | ⟨u, hu, _, hfu⟩
            · exact hw.pending_ty t h hp
            · subst hfu
              simp at hp
          · intro t ht hco hp
            rcases mem_updateFirst ht with h | ⟨u, hu, _, hfu⟩
            · exact hw.cashout_ref t h hco hp
            · subst hfu
              simp at hp
        · rw [if_neg hsig2]
          exact hw
    · rw [if_neg hpend]
      exact hw

theorem invW_cashOutCallback {bad : List String} {w : Wallet} (hw : InvW bad w)
    {r sig : String} :
    InvW bad (handleCashOutCallback w r sig).1 := by
  unfold handleCashOutCallback
  cases hfind : w.transactions.find?
      (fun t => t.referenceId == r && t.type == TxnType.CASHOUT) with
  | none => exact hw
  | some tx =>
    have htxmem := List.mem_of_find?_eq_some hfind
    have htxco : tx.type = TxnType.CASHOUT := by
      have := List.find?_some hfind
      simp at this
      exact this.2
    simp only []
    by_cases hpend : tx.status = TxnStatus.PENDING
    · rw [if_pos hpend]
      by_cases hsig : sig = "COMPLETED" ∨ sig = "SUCCESS"
      · rw [if_pos hsig]
        refine ⟨?_, hw.bal_nonneg, ?_, ?_, ?_⟩
        · show w.balance = ledgerBalance (updateFirst _ _ _)
          rw [ledgerBalance_updateFirst hfind, hw.bal_eq]
          rw [contrib_eval tx, contrib_eval { tx with status := .COMPLETED }]
          simp [hpend, htxco, isCreditType]
        · intro t ht
          rcases mem_updateFirst ht with h | ⟨u, hu, _, hfu⟩
          · exact hw.amounts_pos t h
          · subst hfu
            exact hw.amounts_pos u hu
        · intro t ht hp
          rcases mem_updateFirst ht with h | ⟨u, hu, _, hfu⟩
          · exact hw.pending_ty t h hp
          · subst hfu
            simp at hp
        · intro t ht hco hp
          rcases mem_updateFirst ht with h | ⟨u, hu, _, hfu⟩
          · exact hw.cashout_ref t h hco hp
          · subst hfu
            simp at hp
      · rw [if_neg hsig]
        by_cases hsig2 : sig = "FAILED" ∨ sig = "REJECTED"
        · rw [if_pos hsig2]
          have hamt := hw.amounts_pos tx htxmem
          refine ⟨?_, ?_, ?_, ?_, ?_⟩
          · show w.balance + tx.amount = ledgerBalance (updateFirst _ _ _)
            rw [ledgerBalance_updateFirst hfind, hw.bal_eq]
            rw [contrib_eval tx, contrib_eval { tx with status := .FAILED }]
            simp [hpend, htxco]
          · show 0 ≤ w.balance + tx.amount
            have := hw.bal_nonneg
            omega
          · intro t ht
            rcases mem_updateFirst ht with h | ⟨u, hu, _, hfu⟩
            · exact hw.amounts_pos t h
            · subst hfu
              exact hw.amounts_pos u hu
          · intro t ht hp
            rcases mem_updateFirst ht with h | ⟨u, hu, _, hfu⟩
            · exact hw.pending_ty t h hp
            · subst hfu
              simp at hp
          · intro t ht hco hp
            rcases mem_updateFirst ht with h | ⟨u, hu, _, hfu⟩
            · exact hw.cashout_ref t h hco hp
            · subst hfu
              simp at hp
        · rw [if_neg hsig2]
          exact hw
    · rw [if_neg hpend]
      exact hw

theorem invW_applyOp {bad : List String} {w : Wallet} {op : WalletOp}
    (hw : InvW bad w) (hty : opTyped op = true)
    (hco : ∀ a r s, op = .opRequestCashOut a r s → r ∉ bad)
    (htu : ∀ r sig, op = .opTopUpCallback r sig → r ∈ bad) :
    InvW bad (applyOp w op) := by
  cases op with
  | opAddFunds a ty r s => exact invW_addFunds hw hty
  | opDeductFunds a ty r s => exact invW_deductFunds hw hty
  | opRequestCashOut a r s => exact invW_requestCashOut hw (hco a r s rfl)
  | opCreatePendingTopUp a r s => exact invW_createPendingTopUp hw
  | opTopUpCallback r sig => exact invW_topUpCallback hw (htu r sig rfl)
  | opCashOutCallback r sig => exact invW_cashOutCallback hw

theorem invW_runOps {bad : List String} {w : Wallet} {ops : List WalletOp}
    (hw : InvW bad w)
    (h : ∀ op ∈ ops, opTyped op = true ∧
        (∀ a r s, op = .opRequestCashOut a r s → r ∉ bad) ∧
        (∀ r sig, op = .opTopUpCallback r sig → r ∈ bad)) :
    InvW bad (runOps w ops) := by
  induction ops generalizing w with
  | nil => exact hw
  | cons op ops ih =>
    have h1 := h op (List.mem_cons_self _ _)
    exact ih (invW_applyOp hw h1.1 h1.2.1 h1.2.2)
      (fun o ho => h o (List.mem_cons_of_mem _ ho))

theorem topUpCallback_of_terminal {w : Wallet} {r : String} {tx : Txn}
    (hfind : w.transactions.find? (fun t => t.referenceId == r) = some tx)
    (hterm : tx.status ≠ .PENDING) (sig : String) :
    handleTopUpCallback w r sig = (w, .alreadyProcessed) := by
  unfold handleTopUpCallback
  simp only [hfind]
  rw [if_neg hterm]

theorem cashOutCallback_of_terminal {w : Wallet} {r : String} {tx : Txn}
    (hfind : w.transactions.find?
      (fun t => t.referenceId == r && t.type == TxnType.CASHOUT) = some tx)
    (hterm : tx.status ≠ .PENDING) (sig : String) :
    handleCashOutCallback w r sig = (w, .alreadyProcessed) := by
  unfold handleCashOutCallback
  simp only [hfind]
  rw [if_neg hterm]

theorem topUpCallback_replay {w : Wallet} {r : String} {tx : Txn} {sig : String}
    (hfind : w.transactions.find? (fun t => t.referenceId == r) = some tx)
    (hpend : tx.status = .PENDING)
    (hsig : sig = "PAID" ∨ sig = "COMPLETED" ∨ sig = "EXPIRED" ∨ sig = "FAILED") :
    ∀ sig', handleTopUpCallback (handleTopUpCallback w r sig).1 r sig' =
      ((handleTopUpCallback w r sig).1, .alreadyProcessed) := by
  intro sig'
  have hw1 : sig = "PAID" ∨ sig = "COMPLETED" →
      (handleTopUpCallback w r sig).1.transactions =
        updateFirst w.transactions (fun t => t.referenceId == r)
          (fun t => { t with status := .COMPLETED }) := by
    intro h
    unfold handleTopUpCallback
    simp only [hfind]
    rw [if_pos hpend, if_pos h]
  rcases hsig with h | h | h | h
  · have hfind2 : (handleTopUpCallback w r sig).1.transactions.find?
        (fun t => t.referenceId == r) = some { tx with status := .COMPLETED } := by
      rw [hw1 (Or.inl h)]
      exact find?_updateFirst hfind (fun t => rfl)
    exact topUpCallback_of_terminal hfind2 (by simp) sig'
  · have hfind2 : (handleTopUpCallback w r sig).1.transactions.find?
        (fun t => t.referenceId == r) = some { tx with status := .COMPLETED } := by
      rw [hw1 (Or.inr h)]
      exact find?_updateFirst hfind (fun t => rfl)
    exact topUpCallback_of_terminal hfind2 (by simp) sig'
  · have hne : ¬(sig = "PAID" ∨ sig = "COMPLETED") := by subst h; simp
    have hw3 : (handleTopUpCallback w r sig).1.transactions =
        updateFirst w.transactions (fun t => t.referenceId == r)
          (fun t => { t with status := .FAILED }) := by
      unfold handleTopUpCallback
      simp only [hfind]
      rw [if_pos hpend, if_neg hne, if_pos (Or.inl h)]
    have hfind2 : (handleTopUpCallback w r sig).1.transactions.find?
        (fun t => t.referenceId == r) = some { tx with status := .FAILED } := by
      rw [hw3]
      exact find?_updateFirst hfind (fun t => rfl)
    exact topUpCallback_of_terminal hfind2 (by simp) sig'
  · have hne : ¬(sig = "PAID" ∨ sig = "COMPLETED") := by subst h; simp
    have hw3 : (handleTopUpCallback w r sig).1.transactions =
        updateFirst w.transactions (fun t => t.referenceId == r)
          (fun t => { t with status := .FAILED }) := by
      unfold handleTopUpCallback
      simp only [hfind]
      rw [if_pos hpend, if_neg hne, if_pos (Or.inr h)]
    have hfind2 : (handleTopUpCallback w r sig).1.transactions.find?
        (fun t => t.referenceId == r) = some { tx with status := .FAILED } := by
      rw [hw3]
      exact find?_updateFirst hfind (fun t => rfl)
    exact topUpCallback_of_terminal hfind2 (by simp) sig'

theorem cashOutCallback_replay {w : Wallet} {r : String} {tx : Txn} {sig : String}
    (hfind : w.transactions.find?
      (fun t => t.referenceId == r && t.type == TxnType.CASHOUT) = some tx)
    (hpend : tx.status = .PENDING)
    (hsig : sig = "COMPLETED" ∨ sig = "SUCCESS" ∨ sig = "FAILED" ∨ sig = "REJECTED") :
    ∀ sig', handleCashOutCallback (handleCashOutCallback w r sig).1 r sig' =
      ((handleCashOutCallback w r sig).1, .alreadyProcessed) := by
  intro sig'
  have hkeep : ∀ st (t : Txn),
      ((fun u => u.referenceId == r && u.type == TxnType.CASHOUT)
          ({ t with status := st } : Txn)) =
        ((fun u => u.referenceId == r && u.type == TxnType.CASHOUT) t) :=
    fun _ _ => rfl
  rcases hsig with h | h | h | h
  · have hw1 : (handleCashOutCallback w r sig).1.transactions =
        updateFirst w.transactions
          (fun t => t.referenceId == r && t.type == TxnType.CASHOUT)
          (fun t => { t with status := .COMPLETED }) := by
      unfold handleCashOutCallback
      simp only [hfind]
      rw [if_pos hpend, if_pos (Or.inl h)]
    have hfind2 : (handleCashOutCallback w r sig).1.transactions.find?
        (fun t => t.referenceId == r && t.type == TxnType.CASHOUT) =
          some { tx with status := .COMPLETED } := by
      rw [hw1]
      exact find?_updateFirst hfind (hkeep _)
    exact cashOutCallback_of_terminal hfind2 (by simp) sig'
  · have hw1 : (handleCashOutCallback w r sig).1.transactions =
        updateFirst w.transactions
          (fun t => t.referenceId == r && t.type == TxnType.CASHOUT)
          (fun t => { t with status := .COMPLETED }) := by
      unfold handleCashOutCallback
      simp only [hfind]
      rw [if_pos hpend, if_pos (Or.inr h)]
    have hfind2 : (handleCashOutCallback w r sig).1.transactions.find?
        (fun t => t.referenceId == r && t.type == TxnType.CASHOUT) =
          some { tx with status := .COMPLETED } := by
      rw [hw1]
      exact find?_updateFirst hfind (hkeep _)
    exact cashOutCallback_of_terminal hfind2 (by simp) sig'
  · have hne : ¬(sig = "COMPLETED" ∨ sig = "SUCCESS") := by subst h; simp
    have hw1 : (handleCashOutCallback w r sig).1.transactions =
        updateFirst w.transactions
          (fun t => t.referenceId == r && t.type == TxnType.CASHOUT)
          (fun t => { t with status := .FAILED }) := by
      unfold handleCashOutCallback
      simp only [hfind]
      rw [if_pos hpend, if_neg hne, if_pos (Or.inl h)]
    have hfind2 : (handleCashOutCallback w r sig).1.transactions.find?
        (fun t => t.referenceId == r && t.type == TxnType.CASHOUT) =
          some { tx with status := .FAILED } := by
      rw [hw1]
      exact find?_updateFirst hfind (hkeep _)
    exact cashOutCallback_of_terminal hfind2 (by simp) sig'
  · have hne : ¬(sig = "COMPLETED" ∨ sig = "SUCCESS") := by subst h; simp
    have hw1 : (handleCashOutCallback w r sig).1.transactions =
        updateFirst w.transactions
          (fun t => t.referenceId == r && t.type == TxnType.CASHOUT)
          (fun t => { t with status := .FAILED }) := by
      unfold handleCashOutCallback
      simp only [hfind]
      rw [if_pos hpend, if_neg hne, if_pos (Or.inr h)]
    have hfind2 : (handleCashOutCallback w r sig).1.transactions.find?
        (fun t => t.referenceId == r && t.type == TxnType.CASHOUT) =
          some { tx with status := .FAILED } := by
      rw [hw1]
      exact find?_updateFirst hfind (hkeep _)
    exact cashOutCallback_of_terminal hfind2 (by simp) sig'

/-- C1.  Ledger invariant: starting from a fresh wallet, after any sequence
of engine operations (credits via `addFunds`, debits via `deductFunds`,
cash-out holds via `requestCashOut`, pending top-up records) and
reconciliation callbacks — typed as at the repository's call sites, with
top-up callbacks keyed by top-up (not payout) reference ids — the stored
balance equals Σ(COMPLETED credit amounts) − Σ(COMPLETED debit amounts) −
Σ(amounts of CASHOUT entries still PENDING), and the balance is never
negative. -/
theorem claim_C1_balance_invariant (ops : List WalletOp)
    (h : WellFormedOps ops) :
    (runOps emptyWallet ops).balance =
        completedCredits (runOps emptyWallet ops).transactions
          - completedDebits (runOps emptyWallet ops).transactions
          - pendingCashoutHolds (runOps emptyWallet ops).transactions ∧
      0 ≤ (runOps emptyWallet ops).balance := by
  have hinv : InvW (topupCallbackRefs ops) (runOps emptyWallet ops) := by
    refine invW_runOps (invW_empty _) ?_
    intro op hop
    refine ⟨h.1 op hop, ?_, ?_⟩
    · intro a r s heq hmem
      have hco : r ∈ cashoutRefs ops := by
        refine List.mem_filterMap.mpr ⟨op, hop, ?_⟩
        rw [heq]
      exact h.2 r hmem hco
    · intro r sig heq
      refine List.mem_filterMap.mpr ⟨op, hop, ?_⟩
      rw [heq]
  exact ⟨hinv.bal_eq, hinv.bal_nonneg⟩

/-- Witness for C1 at a concrete run: a 500 top-up credit, a 120 fare debit,
a 100 cash-out hold, and a FAILED payout callback releasing the hold. -/
theorem claim_C1_balance_invariant_witness :
    WellFormedOps
        [WalletOp.opAddFunds 500 .TOPUP "t1" 1,
         WalletOp.opDeductFunds 120 .PAYMENT "p1" 2,
         WalletOp.opRequestCashOut 100 "co1" 3,
         WalletOp.opCashOutCallback "co1" "FAILED"] ∧
      ((runOps emptyWallet
          [WalletOp.opAddFunds 500 .TOPUP "t1" 1,
           WalletOp.opDeductFunds 120 .PAYMENT "p1" 2,
           WalletOp.opRequestCashOut 100 "co1" 3,
           WalletOp.opCashOutCallback "co1" "FAILED"]).balance =
          completedCredits (runOps emptyWallet
            [WalletOp.opAddFunds 500 .TOPUP "t1" 1,
             WalletOp.opDeductFunds 120 .PAYMENT "p1" 2,
             WalletOp.opRequestCashOut 100 "co1" 3,
             WalletOp.opCashOutCallback "co1" "FAILED"]).transactions
            - completedDebits (runOps emptyWallet
              [WalletOp.opAddFunds 500 .TOPUP "t1" 1,
               WalletOp.opDeductFunds 120 .PAYMENT "p1" 2,
               WalletOp.opRequestCashOut 100 "co1" 3,
               WalletOp.opCashOutCallback "co1" "FAILED"]).transactions
            - pendingCashoutHolds (runOps emptyWallet
              [WalletOp.opAddFunds 500 .TOPUP "t1" 1,
               WalletOp.opDeductFunds 120 .PAYMENT "p1" 2,
               WalletOp.opRequestCashOut 100 "co1" 3,
               WalletOp.opCashOutCallback "co1" "FAILED"]).transactions ∧
        0 ≤ (runOps emptyWallet
          [WalletOp.opAddFunds 500 .TOPUP "t1" 1,
           WalletOp.opDeductFunds 120 .PAYMENT "p1" 2,
           WalletOp.opRequestCashOut 100 "co1" 3,
           WalletOp.opCashOutCallback "co1" "FAILED"]).balance) :=
  ⟨by constructor
      · decide
      · decide,
   claim_C1_balance_invariant _ ⟨by decide, by decide⟩⟩

/-- C2.  Callback idempotence: once the entry located by a reference id is in
a terminal state, any replayed top-up or cash-out callback for it is a no-op
(the wallet — balance and entry list — is returned unchanged, so no balance
change and no duplicate entry) with the success-shaped `already_processed`
response; and after the first successful application of a terminal signal to
a PENDING entry, every later callback for the same reference id is such a
no-op. -/
theorem claim_C2_callback_idempotent (w : Wallet) (r : String) (tx : Txn) :
    (w.transactions.find? (fun t => t.referenceId == r) = some tx →
      tx.status ≠ .PENDING →
      ∀ sig, handleTopUpCallback w r sig = (w, .alreadyProcessed)) ∧
    (w.transactions.find?
        (fun t => t.referenceId == r && t.type == TxnType.CASHOUT) = some tx →
      tx.status ≠ .PENDING →
      ∀ sig, handleCashOutCallback w r sig = (w, .alreadyProcessed)) ∧
    (w.transactions.find? (fun t => t.referenceId == r) = some tx →
      tx.status = .PENDING →
      ∀ sig, (sig = "PAID" ∨ sig = "COMPLETED" ∨ sig = "EXPIRED" ∨ sig = "FAILED") →
      ∀ sig', handleTopUpCallback (handleTopUpCallback w r sig).1 r sig' =
        ((handleTopUpCallback w r sig).1, .alreadyProcessed)) ∧
    (w.transactions.find?
        (fun t => t.referenceId == r && t.type == TxnType.CASHOUT) = some tx →
      tx.status = .PENDING →
      ∀ sig, (sig = "COMPLETED" ∨ sig = "SUCCESS" ∨ sig = "FAILED" ∨ sig = "REJECTED") →
      ∀ sig', handleCashOutCallback (handleCashOutCallback w r sig).1 r sig' =
        ((handleCashOutCallback w r sig).1, .alreadyProcessed)) := by
  refine ⟨?_, ?_, ?_, ?_⟩
  · intro hfind hterm sig
    exact topUpCallback_of_terminal hfind hterm sig
  · intro hfind hterm sig
    exact cashOutCallback_of_terminal hfind hterm sig
  · intro hfind hpend sig hsig sig'
    exact topUpCallback_replay hfind hpend hsig sig'
  · intro hfind hpend sig hsig sig'
    exact cashOutCallback_replay hfind hpend hsig sig'

/-- Witness for C2: a wallet holding one COMPLETED TOPUP entry (replays
no-op) and the first-application-then-replay conjuncts exercised on a PENDING
CASHOUT hold. -/
theorem claim_C2_callback_idempotent_witness :
    ({ balance := 400,
       transactions := [{ type := TxnType.CASHOUT, amount := 100,
                          status := .PENDING, referenceId := "co1",
                          seq := 1 }] } : Wallet).transactions.find?
        (fun t => t.referenceId == "co1" && t.type == TxnType.CASHOUT) =
      some { type := TxnType.CASHOUT, amount := 100, status := .PENDING,
             referenceId := "co1", seq := 1 } ∧
    handleCashOutCallback
        (handleCashOutCallback
          { balance := 400,
            transactions := [{ type := TxnType.CASHOUT, amount := 100,
                               status := .PENDING, referenceId := "co1",
                               seq := 1 }] } "co1" "FAILED").1 "co1" "FAILED" =
      ((handleCashOutCallback
          { balance := 400,
            transactions := [{ type := TxnType.CASHOUT, amount := 100,
                               status := .PENDING, referenceId := "co1",
                               seq := 1 }] } "co1" "FAILED").1,
       .alreadyProcessed) :=
  ⟨by decide,
   (claim_C2_callback_idempotent
      { balance := 400,
        transactions := [{ type := TxnType.CASHOUT, amount := 100,
                           status := .PENDING, referenceId := "co1",
                           seq := 1 }] } "co1"
      { type := TxnType.CASHOUT, amount := 100, status := .PENDING,
        referenceId := "co1", seq := 1 }).2.2.2
      (by decide) (by decide) "FAILED" (by simp) "FAILED"⟩

/-- C3.  Cash-out hold/release round trip on a balance-500 wallet:
`requestCashOut 100` leaves balance 400 with one PENDING CASHOUT entry; a
FAILED payout callback for that reference id restores the balance to 500 in
the same atomic update that flips the entry to FAILED; a COMPLETED callback
on the PENDING (non-restored) entry leaves the balance at 400 and only flips
the status. -/
theorem claim_C3_cashout_round_trip :
    requestCashOut { balance := 500, transactions := [] } 100 "co1" 1 =
      .ok { balance := 400,
            transactions := [{ type := TxnType.CASHOUT, amount := 100,
                               status := .PENDING, referenceId := "co1",
                               seq := 1 }] } ∧
    handleCashOutCallback
        { balance := 400,
          transactions := [{ type := TxnType.CASHOUT, amount := 100,
                             status := .PENDING, referenceId := "co1",
                             seq := 1 }] } "co1" "FAILED" =
      ({ balance := 500,
         transactions := [{ type := TxnType.CASHOUT, amount := 100,
                            status := .FAILED, referenceId := "co1",
                            seq := 1 }] },
       .cashoutFailedRefunded) ∧
    handleCashOutCallback
        { balance := 400,
          transactions := [{ type := TxnType.CASHOUT, amount := 100,
                             status := .PENDING, referenceId := "co1",
                             seq := 1 }] } "co1" "COMPLETED" =
      ({ balance := 400,
         transactions := [{ type := TxnType.CASHOUT, amount := 100,
                            status := .COMPLETED, referenceId := "co1",
                            seq := 1 }] },
       .cashoutCompleted) :=
  ⟨rfl, rfl, rfl⟩

/-- The inductive invariant of the debit race: with `succ` committed debits of
`amount`, the balance holds the remaining `((n − 1) − succ) * amount`, at most
`n − 1` debits ever commit, and a caller is rejected only once `n − 1` debits
have committed. -/
structure DebitInv (n : Nat) (amount : Int) (s : DebitSys) : Prop where
  len : s.threads.length = n
  bal : s.balance =
    ((n : Int) - 1 - (countDone s.threads true : Int)) * amount
  succ_le : countDone s.threads true ≤ n - 1
  fail_imp : 0 < countDone s.threads false → countDone s.threads true = n - 1

theorem set_getElem?_self {α : Type} {l : List α} {i : Nat} {t : α}
    (h : l[i]? = some t) : l.set i t = l := by
  apply List.ext_getElem?
  intro j
  rw [List.getElem?_set]
  split
  · rename_i hij
    subst hij
    simp [List.getElem?_eq_some.mp h |>.1, h.symm]
  · rfl

theorem countDone_set {ts : List ThreadSt} {i : Nat} {t : ThreadSt}
    (hget : ts[i]? = some t) (t' : ThreadSt) (ok : Bool) :
    countDone (ts.set i t') ok =
      countDone ts ok - (if t = .done ok then 1 else 0)
        + (if t' = .done ok then 1 else 0) := by
  obtain ⟨hi, hval⟩ := List.getElem?_eq_some.mp hget
  unfold countDone
  rw [List.count_set _ _ _ _ hi, hval]
  simp [beq_iff_eq]

theorem countDone_true_add_false {ts : List ThreadSt}
    (h : ∀ t ∈ ts, t = .done true ∨ t = .done false) :
    countDone ts true + countDone ts false = ts.length := by
  induction ts with
  | nil => rfl
  | cons t ts ih =>
    have ht := h t (List.mem_cons_self _ _)
    have ih' := ih (fun u hu => h u (List.mem_cons_of_mem _ hu))
    unfold countDone at *
    rcases ht with rfl | rfl <;> simp [List.count_cons] <;> omega

theorem debitInv_step {n : Nat} {amount : Int} (hA : 0 < amount) {s : DebitSys}
    (hs : DebitInv n amount s) (i : Nat) :
    DebitInv n amount (stepSys amount s i) := by
  unfold stepSys
  cases hget : s.threads[i]? with
  | none => exact hs
  | some t =>
    simp only []
    have hset : ∀ t' : ThreadSt,
        (s.threads.set i t').length = n := by
      intro t'
      rw [List.length_set]
      exact hs.len
    cases t with
    | idle =>
      by_cases hb : s.balance < amount
      · simp only [stepThread, if_pos hb]
        have hsuc : countDone s.threads true = n - 1 := by
          have hblt : ((n : Int) - 1 - (countDone s.threads true : Int)) * amount
              < 1 * amount := by
            rw [one_mul]
            rw [hs.bal] at hb
            exact hb
          have hlt := (mul_lt_mul_right hA).mp hblt
          have := hs.succ_le
          omega
        refine ⟨hset _, ?_, ?_, ?_⟩
        · rw [countDone_set hget, hs.bal]
          simp
        · rw [countDone_set hget]
          simp [hs.succ_le]
        · intro _
          rw [countDone_set hget]
          simp [hsuc]
      · simp only [stepThread, if_neg hb]
        refine ⟨hset _, ?_, ?_, ?_⟩
        · rw [countDone_set hget, hs.bal]
          simp
        · rw [countDone_set hget]
          simp [hs.succ_le]
        · intro hf
          rw [countDone_set hget] at hf ⊢
          simp at hf ⊢
          exact hs.fail_imp hf
    | ready =>
      by_cases hb : s.balance < amount
      · simp only [stepThread, if_pos hb]
        have hsuc : countDone s.threads true = n - 1 := by
          have hblt : ((n : Int) - 1 - (countDone s.threads true : Int)) * amount
              < 1 * amount := by
            rw [one_mul]
            rw [hs.bal] at hb
            exact hb
          have hlt := (mul_lt_mul_right hA).mp hblt
          have := hs.succ_le
          omega
        refine ⟨hset _, ?_, ?_, ?_⟩
        · rw [countDone_set hget, hs.bal]
          simp
        · rw [countDone_set hget]
          simp [hs.succ_le]
        · intro _
          rw [countDone_set hget]
          simp [hsuc]
      · simp only [stepThread, if_neg hb]
        have hge : (1 : Int) * amount ≤
            ((n : Int) - 1 - (countDone s.threads true : Int)) * amount := by
          rw [one_mul]
          rw [hs.bal] at hb
          omega
        have hle := (mul_le_mul_right hA).mp hge
        have hsle := hs.succ_le
        refine ⟨hset _, ?_, ?_, ?_⟩
        · rw [countDone_set hget, hs.bal]
          simp only [show (ThreadSt.ready = ThreadSt.done true) = False by simp,
            show (ThreadSt.done true = ThreadSt.done true) = True by simp,
            if_true, if_false, Nat.sub_zero]
          push_cast
          ring
        · rw [countDone_set hget]
          simp only [show (ThreadSt.ready = ThreadSt.done true) = False by simp,
            show (ThreadSt.done true = ThreadSt.done true) = True by simp,
            if_true, if_false, Nat.sub_zero]
          omega
        · intro hf
          rw [countDone_set hget] at hf
          simp only [show (ThreadSt.ready = ThreadSt.done false) = False by simp,
            show (ThreadSt.done true = ThreadSt.done false) = False by simp,
            if_false, Nat.sub_zero] at hf
          have := hs.fail_imp hf
          omega
    | done ok =>
      simp only [stepThread]
      rw [set_getElem?_self hget]
      exact ⟨hs.len, hs.bal, hs.succ_le, hs.fail_imp⟩

theorem debitInv_runSched {n : Nat} {amount : Int} (hA : 0 < amount)
    {s : DebitSys} (hs : DebitInv n amount s) (sched : List Nat) :
    DebitInv n amount (runSched amount s sched) := by
  induction sched generalizing s with
  | nil => exact hs
  | cons i sched ih => exact ih (debitInv_step hA hs i)

theorem debitInv_init (n : Nat) (amount : Int) :
    DebitInv n amount (initDebitSys n amount) := by
  have hcount : ∀ ok, countDone (List.replicate n ThreadSt.idle) ok = 0 := by
    intro ok
    unfold countDone
    rw [List.count_replicate]
    simp
  refine ⟨List.length_replicate n _, ?_, ?_, ?_⟩
  · show ((n : Int) - 1) * amount = _
    rw [show (initDebitSys n amount).threads = List.replicate n ThreadSt.idle
      from rfl, hcount]
    simp
  · rw [show (initDebitSys n amount).threads = List.replicate n ThreadSt.idle
      from rfl, hcount]
    omega
  · intro hf
    rw [show (initDebitSys n amount).threads = List.replicate n ThreadSt.idle
      from rfl, hcount] at hf
    omega

/-- C4.  No double-spend: `n` concurrent `deductFunds` callers, each debiting
`amount` from a wallet whose balance is exactly `(n − 1) * amount`, are run
under an arbitrary interleaving of their two steps (the application-level
fresh balance check, then the store's conditional
`findOneAndUpdate { balance: { $gte: amount } }`).  Whenever every caller has
returned, exactly `n − 1` debits succeeded and exactly 1 caller was rejected
with insufficient balance — for every arrival order, including schedules in
which every application-level check passes on a balance that is stale by
commit time, where only the store's atomic predicate performs the
rejection. -/
theorem claim_C4_no_double_spend (n : Nat) (amount : Int) (sched : List Nat)
    (hA : 0 < amount) (hn : 1 ≤ n)
    (hdone : ∀ t ∈ (runSched amount (initDebitSys n amount) sched).threads,
      t = .done true ∨ t = .done false) :
    countDone (runSched amount (initDebitSys n amount) sched).threads true
        = n - 1 ∧
      countDone (runSched amount (initDebitSys n amount) sched).threads false
        = 1 := by
  have hinv := debitInv_runSched hA (debitInv_init n amount) sched
  have hsum := countDone_true_add_false hdone
  rw [hinv.len] at hsum
  have hle := hinv.succ_le
  by_cases hf :
      0 < countDone (runSched amount (initDebitSys n amount) sched).threads false
  · have := hinv.fail_imp hf
    omega
  · omega

/-- Witness for C4: three callers debiting 50 from a balance-100 wallet,
scheduled so that all three application-level checks pass on the initial
balance before any conditional update commits; two succeed, one is rejected
by the store's predicate. -/
theorem claim_C4_no_double_spend_witness :
    (0 : Int) < 50 ∧ 1 ≤ 3 ∧
    (∀ t ∈ (runSched 50 (initDebitSys 3 50) [0, 1, 2, 0, 1, 2]).threads,
      t = .done true ∨ t = .done false) ∧
    (countDone (runSched 50 (initDebitSys 3 50) [0, 1, 2, 0, 1, 2]).threads true
        = 3 - 1 ∧
      countDone (runSched 50 (initDebitSys 3 50) [0, 1, 2, 0, 1, 2]).threads false
        = 1) :=
  ⟨by decide, by decide, by decide,
   claim_C4_no_double_spend 3 50 [0, 1, 2, 0, 1, 2] (by decide) (by decide)
     (by decide)⟩

theorem initiateCashOut_success {w : Wallet} {amount : Int} {ref : String}
    {seq : Nat} (h1 : 100 ≤ amount) (h2 : amount ≤ w.balance) :
    initiateCashOut w "driver" amount true (some ref) seq =
      ({ balance := w.balance - amount
         transactions := w.transactions ++
           [{ type := .CASHOUT, amount := amount, status := .PENDING,
              referenceId := ref, seq := seq }] },
       .ok ref) := by
  unfold initiateCashOut
  rw [if_neg (by simp : ¬("driver" ≠ "driver")),
    if_neg (by omega : ¬amount < 1), if_neg (by omega : ¬amount < 100),
    if_neg (by simp : ¬¬(true = true)), if_neg (by omega : ¬w.balance < amount)]
  simp only []
  unfold requestCashOut
  rw [if_neg (by omega : ¬amount ≤ 0), if_neg (by omega : ¬w.balance < amount)]

/-- C5.  `initiateCashOut` on a driver account with valid bank details:
a non-positive amount is rejected as invalid, an amount below the ₱100 floor
fails with the below-minimum error, an amount exceeding the balance fails
with insufficient balance — in every failure case the wallet is returned
untouched and no entry is created — and on success (provider accepted, gave
reference `ref`) exactly one PENDING CASHOUT entry is appended and the
balance decremented by the amount in the same atomic `requestCashOut` update,
with the response carrying the entry's reference id `ref`. -/
theorem claim_C5_reserve_validations (w : Wallet) (amount : Int)
    (payoutResult : Option String) (seq : Nat) :
    (amount < 1 →
      initiateCashOut w "driver" amount true payoutResult seq =
        (w, .error .invalidAmount)) ∧
    (1 ≤ amount → amount < 100 →
      initiateCashOut w "driver" amount true payoutResult seq =
        (w, .error .belowMinimum)) ∧
    (100 ≤ amount → w.balance < amount →
      initiateCashOut w "driver" amount true payoutResult seq =
        (w, .error .insufficientBalance)) ∧
    (∀ ref, 100 ≤ amount → amount ≤ w.balance →
      initiateCashOut w "driver" amount true (some ref) seq =
        ({ balance := w.balance - amount
           transactions := w.transactions ++
             [{ type := .CASHOUT, amount := amount, status := .PENDING,
                referenceId := ref, seq := seq }] },
         .ok ref)) := by
  refine ⟨?_, ?_, ?_, ?_⟩
  · intro h1
    unfold initiateCashOut
    rw [if_neg (by simp : ¬("driver" ≠ "driver")), if_pos h1]
  · intro h1 h2
    unfold initiateCashOut
    rw [if_neg (by simp : ¬("driver" ≠ "driver")),
      if_neg (by omega : ¬amount < 1), if_pos h2]
  · intro h1 h2
    unfold initiateCashOut
    rw [if_neg (by simp : ¬("driver" ≠ "driver")),
      if_neg (by omega : ¬amount < 1), if_neg (by omega : ¬amount < 100),
      if_neg (by simp : ¬¬(true = true)), if_pos h2]
  · intro ref h1 h2
    exact initiateCashOut_success h1 h2

/-- Witness for C5 at concrete inputs: floor rejection at 50, insufficient
balance at 600 against 500, and a successful 100 hold on a balance-500
wallet. -/
theorem claim_C5_reserve_validations_witness :
    ((1 : Int) ≤ 50 ∧ (50 : Int) < 100 ∧
      initiateCashOut { balance := 500, transactions := [] } "driver" 50 true
          (some "xp1") 7 =
        ({ balance := 500, transactions := [] }, .error .belowMinimum)) ∧
    ((100 : Int) ≤ 600 ∧ (500 : Int) < 600 ∧
      initiateCashOut { balance := 500, transactions := [] } "driver" 600 true
          (some "xp1") 7 =
        ({ balance := 500, transactions := [] }, .error .insufficientBalance)) ∧
    ((100 : Int) ≤ 100 ∧ (100 : Int) ≤ 500 ∧
      initiateCashOut { balance := 500, transactions := [] } "driver" 100 true
          (some "xp1") 7 =
        ({ balance := 400
           transactions := [{ type := .CASHOUT, amount := 100,
                              status := .PENDING, referenceId := "xp1",
                              seq := 7 }] },
         .ok "xp1")) :=
  ⟨⟨by decide, by decide,
    (claim_C5_reserve_validations { balance := 500, transactions := [] } 50
      (some "xp1") 7).2.1 (by decide) (by decide)⟩,
   ⟨by decide, by decide,
    (claim_C5_reserve_validations { balance := 500, transactions := [] } 600
      (some "xp1") 7).2.2.1 (by decide) (by decide)⟩,
   ⟨by decide, by decide,
    (claim_C5_reserve_validations { balance := 500, transactions := [] } 100
      (some "xp1") 7).2.2.2 "xp1" (by decide) (by decide)⟩⟩

/-- C6.  `deductFunds`: a non-positive amount is rejected as invalid for
every wallet state (the check precedes any store access — the result is the
same error regardless of `w`) and leaves the wallet unchanged; a positive
amount exceeding the balance fails with insufficient balance leaving the
wallet unchanged; otherwise exactly one COMPLETED entry of that (positive)
amount is appended and the balance decremented in one atomic update. -/
theorem claim_C6_debit_semantics (w : Wallet) (amount : Int) (ty : TxnType)
    (refId : String) (seq : Nat) :
    (amount ≤ 0 →
      deductFunds w amount ty refId seq = .error .InvalidAmount ∧
        applyOp w (.opDeductFunds amount ty refId seq) = w) ∧
    (0 < amount → w.balance < amount →
      deductFunds w amount ty refId seq = .error .InsufficientBalance ∧
        applyOp w (.opDeductFunds amount ty refId seq) = w) ∧
    (0 < amount → amount ≤ w.balance →
      deductFunds w amount ty refId seq =
        .ok { balance := w.balance - amount
              transactions := w.transactions ++
                [{ type := ty, amount := amount, status := .COMPLETED,
                   referenceId := refId, seq := seq }] }) := by
  refine ⟨?_, ?_, ?_⟩
  · intro h1
    have hd : deductFunds w amount ty refId seq = .error .InvalidAmount := by
      unfold deductFunds
      rw [if_pos h1]
    refine ⟨hd, ?_⟩
    show orUnchanged w (deductFunds w amount ty refId seq) = w
    rw [hd]
    rfl
  · intro h1 h2
    have hd : deductFunds w amount ty refId seq = .error .InsufficientBalance := by
      unfold deductFunds
      rw [if_neg (by omega : ¬amount ≤ 0), if_pos h2]
    refine ⟨hd, ?_⟩
    show orUnchanged w (deductFunds w amount ty refId seq) = w
    rw [hd]
    rfl
  · intro h1 h2
    unfold deductFunds
    rw [if_neg (by omega : ¬amount ≤ 0), if_neg (by omega : ¬w.balance < amount)]

/-- Witness for C6: rejection of 0 and of a 200 debit against balance 100,
and a successful 100 debit against balance 250. -/
theorem claim_C6_debit_semantics_witness :
    ((0 : Int) ≤ 0 ∧
      deductFunds { balance := 100, transactions := [] } 0 .PAYMENT "p0" 1 =
        .error .InvalidAmount) ∧
    ((0 : Int) < 200 ∧ (100 : Int) < 200 ∧
      deductFunds { balance := 100, transactions := [] } 200 .PAYMENT "p0" 1 =
        .error .InsufficientBalance) ∧
    ((0 : Int) < 100 ∧ (100 : Int) ≤ 250 ∧
      deductFunds { balance := 250, transactions := [] } 100 .PAYMENT "p0" 1 =
        .ok { balance := 150
              transactions := [{ type := .PAYMENT, amount := 100,
                                 status := .COMPLETED, referenceId := "p0",
                                 seq := 1 }] }) :=
  ⟨⟨by decide,
    ((claim_C6_debit_semantics { balance := 100, transactions := [] } 0
      .PAYMENT "p0" 1).1 (by decide)).1⟩,
   ⟨by decide, by decide,
    ((claim_C6_debit_semantics { balance := 100, transactions := [] } 200
      .PAYMENT "p0" 1).2.1 (by decide) (by decide)).1⟩,
   ⟨by decide, by decide,
    (claim_C6_debit_semantics { balance := 250, transactions := [] } 100
      .PAYMENT "p0" 1).2.2 (by decide) (by decide)⟩⟩

/-- C9.  The cash-out hold is taken only after the provider accepted the
payout: if the provider call fails or times out (`payoutResult = none`, any
role, amount, or bank details), `initiateCashOut` returns the wallet
untouched — no balance change, no entry; and on provider acceptance with
reference `ref`, the appended PENDING CASHOUT entry carries exactly that
provider-returned reference id. -/
theorem claim_C9_provider_before_hold (w : Wallet) (role : String)
    (amount : Int) (bankValid : Bool) (seq : Nat) :
    ((initiateCashOut w role amount bankValid none seq).1 = w) ∧
    (∀ ref, 100 ≤ amount → amount ≤ w.balance →
      (initiateCashOut w "driver" amount true (some ref) seq).1.transactions =
        w.transactions ++
          [{ type := .CASHOUT, amount := amount, status := .PENDING,
             referenceId := ref, seq := seq }] ∧
      (initiateCashOut w "driver" amount true (some ref) seq).2 = .ok ref) := by
  constructor
  · unfold initiateCashOut
    split_ifs <;> rfl
  · intro ref h1 h2
    rw [initiateCashOut_success h1 h2]
    exact ⟨rfl, rfl⟩

/-- Witness for C9: a timed-out provider call leaves a balance-500 wallet
untouched; a successful provider call with reference `"xp9"` produces the
hold entry carrying `"xp9"`. -/
theorem claim_C9_provider_before_hold_witness :
    ((initiateCashOut { balance := 500, transactions := [] } "driver" 100 true
        none 3).1 = { balance := 500, transactions := [] }) ∧
    ((100 : Int) ≤ 100 ∧ (100 : Int) ≤ 500 ∧
      (initiateCashOut { balance := 500, transactions := [] } "driver" 100 true
          (some "xp9") 3).1.transactions =
        [{ type := .CASHOUT, amount := 100, status := .PENDING,
           referenceId := "xp9", seq := 3 }]) :=
  ⟨(claim_C9_provider_before_hold { balance := 500, transactions := [] }
      "driver" 100 true 3).1,
   by decide, by decide,
   by
    have h := (claim_C9_provider_before_hold
      { balance := 500, transactions := [] } "driver" 100 true 3).2 "xp9"
      (by decide) (by decide)
    exact h.1⟩

/-- C10.  The driver-role gate: for any requester whose role is not
`'driver'`, `initiateCashOut` returns the 403 only-drivers error with the
wallet untouched, for every amount, bank-details validity, and provider
outcome — so the rejection happens before any amount validation, wallet
lookup, provider call, or balance change. -/
theorem claim_C10_driver_role_gate (w : Wallet) (role : String) (amount : Int)
    (bankValid : Bool) (payoutResult : Option String) (seq : Nat)
    (hrole : role ≠ "driver") :
    initiateCashOut w role amount bankValid payoutResult seq =
      (w, .error .notDriver) := by
  unfold initiateCashOut
  rw [if_pos hrole]

/-- Witness for C10: a passenger requesting a cash-out of 500 is rejected
with the wallet untouched. -/
theorem claim_C10_driver_role_gate_witness :
    "passenger" ≠ "driver" ∧
      initiateCashOut { balance := 900, transactions := [] } "passenger" 500
          true (some "xp2") 4 =
        ({ balance := 900, transactions := [] }, .error .notDriver) :=
  ⟨by decide,
   claim_C10_driver_role_gate { balance := 900, transactions := [] }
     "passenger" 500 true (some "xp2") 4 (by decide)⟩

theorem mem_insertDesc {x t : Txn} {l : List Txn} :
    x ∈ insertDesc t l ↔ x = t ∨ x ∈ l := by
  induction l with
  | nil => simp [insertDesc]
  | cons u us ih =>
    simp only [insertDesc]
    split_ifs with h
    · simp only [List.mem_cons]
    · simp only [List.mem_cons, ih]
      tauto

theorem pairwise_insertDesc {t : Txn} {l : List Txn}
    (h : l.Pairwise (fun a b => b.seq ≤ a.seq)) :
    (insertDesc t l).Pairwise (fun a b => b.seq ≤ a.seq) := by
  induction l with
  | nil => simp [insertDesc]
  | cons u us ih =>
    rcases List.pairwise_cons.mp h with ⟨hu, hus⟩
    simp only [insertDesc]
    split_ifs with hlt
    · refine List.pairwise_cons.mpr ⟨?_, h⟩
      intro x hx
      rcases List.mem_cons.mp hx with rfl | hxus
      · omega
      · have := hu x hxus
        omega
    · refine List.pairwise_cons.mpr ⟨?_, ih hus⟩
      intro x hx
      rcases mem_insertDesc.mp hx with rfl | hxus
      · omega
      · exact hu x hxus

theorem sortTransactions_pairwise (l : List Txn) :
    (sortTransactions l).Pairwise (fun a b => b.seq ≤ a.seq) := by
  suffices h : ∀ acc : List Txn, acc.Pairwise (fun a b => b.seq ≤ a.seq) →
      (l.foldl (fun acc t => insertDesc t acc) acc).Pairwise
        (fun a b => b.seq ≤ a.seq) from h [] (by simp)
  induction l with
  | nil => intro acc hacc; exact hacc
  | cons t ts ih => intro acc hacc; exact ih _ (pairwise_insertDesc hacc)

theorem insertDesc_append_of_ge {t : Txn} {l : List Txn}
    (h : ∀ u ∈ l, t.seq ≤ u.seq) : insertDesc t l = l ++ [t] := by
  induction l with
  | nil => rfl
  | cons u us ih =>
    have hu := h u (List.mem_cons_self _ _)
    simp only [insertDesc]
    rw [if_neg (by omega : ¬u.seq < t.seq),
      ih (fun v hv => h v (List.mem_cons_of_mem _ hv))]
    rfl

theorem foldl_insertDesc_const {k : Nat} : ∀ l acc : List Txn,
    (∀ t ∈ l, t.seq = k) → (∀ u ∈ acc, u.seq = k) →
    l.foldl (fun acc t => insertDesc t acc) acc = acc ++ l := by
  intro l
  induction l with
  | nil => intro acc _ _; simp
  | cons t ts ih =>
    intro acc hl hacc
    have ht : t.seq = k := hl t (List.mem_cons_self _ _)
    rw [List.foldl_cons,
      insertDesc_append_of_ge
        (fun u hu => by have := hacc u hu; omega),
      ih (acc ++ [t]) (fun u hu => hl u (List.mem_cons_of_mem _ hu)) ?_]
    · simp
    · intro u hu
      rcases List.mem_append.mp hu with h1 | h1
      · exact hacc u h1
      · simp at h1
        subst h1
        exact ht

theorem sortTransactions_const_seq {k : Nat} {l : List Txn}
    (h : ∀ t ∈ l, t.seq = k) : sortTransactions l = l := by
  unfold sortTransactions
  rw [foldl_insertDesc_const l [] h (by simp)]
  rfl

/-- C7 counterexample: three entries inserted in order E1, E2, E3 within the
same millisecond (equal `createdAt`).  `getTransactionHistory` returns them
in insertion order `[E1, E2, E3]` — the ECMAScript stable sort keeps the
array order on comparator ties — not in the reverse insertion order
`[E3, E2, E1]` the claim requires; and the endpoint's response is the bare
entry array, with no total count. -/
theorem claim_C7_history_order_counterexample :
    getTransactionHistory
        { balance := 100,
          transactions :=
            [{ type := .TOPUP, amount := 10, status := .COMPLETED,
               referenceId := "e1", seq := 5 },
             { type := .PAYMENT, amount := 20, status := .COMPLETED,
               referenceId := "e2", seq := 5 },
             { type := .TOPUP, amount := 30, status := .COMPLETED,
               referenceId := "e3", seq := 5 }] } 1 50 =
      [{ type := .TOPUP, amount := 10, status := .COMPLETED,
         referenceId := "e1", seq := 5 },
       { type := .PAYMENT, amount := 20, status := .COMPLETED,
         referenceId := "e2", seq := 5 },
       { type := .TOPUP, amount := 30, status := .COMPLETED,
         referenceId := "e3", seq := 5 }] ∧
    ([{ type := .TOPUP, amount := 10, status := .COMPLETED,
        referenceId := "e1", seq := 5 },
      { type := .PAYMENT, amount := 20, status := .COMPLETED,
        referenceId := "e2", seq := 5 },
      { type := .TOPUP, amount := 30, status := .COMPLETED,
        referenceId := "e3", seq := 5 }] : List Txn) ≠
      [{ type := .TOPUP, amount := 30, status := .COMPLETED,
         referenceId := "e3", seq := 5 },
       { type := .PAYMENT, amount := 20, status := .COMPLETED,
         referenceId := "e2", seq := 5 },
       { type := .TOPUP, amount := 10, status := .COMPLETED,
         referenceId := "e1", seq := 5 }] := by
  constructor
  · decide
  · decide

/-- C7 as amended: `getTransactionHistory` returns the page slice of the
wallet's entries under a stable sort descending by creation time — entries
sorted newest-first, with equal-timestamp entries kept in insertion order
(first-inserted first, not reverse) — and with no total count in the
response; entries with strictly increasing creation times do come back in
reverse insertion order, deterministically across repeated calls. -/
theorem claim_C7_history_order_amended (txns : List Txn) (k : Nat)
    (w : Wallet) (limit : Nat) :
    ((sortTransactions txns).Pairwise (fun a b => b.seq ≤ a.seq)) ∧
    ((∀ t ∈ txns, t.seq = k) → sortTransactions txns = txns) ∧
    (getTransactionHistory w 1 limit =
      (sortTransactions w.transactions).take limit) ∧
    (getTransactionHistory
        { balance := 100,
          transactions :=
            [{ type := .TOPUP, amount := 10, status := .COMPLETED,
               referenceId := "e1", seq := 5 },
             { type := .PAYMENT, amount := 20, status := .COMPLETED,
               referenceId := "e2", seq := 6 },
             { type := .TOPUP, amount := 30, status := .COMPLETED,
               referenceId := "e3", seq := 7 }] } 1 50 =
      [{ type := .TOPUP, amount := 30, status := .COMPLETED,
         referenceId := "e3", seq := 7 },
       { type := .PAYMENT, amount := 20, status := .COMPLETED,
         referenceId := "e2", seq := 6 },
       { type := .TOPUP, amount := 10, status := .COMPLETED,
         referenceId := "e1", seq := 5 }]) := by
  refine ⟨sortTransactions_pairwise txns, sortTransactions_const_seq, ?_, ?_⟩
  · unfold getTransactionHistory
    norm_num
  · decide

/-- Witness for C7's amended statement: the equal-timestamp triple comes
back in insertion order. -/
theorem claim_C7_history_order_amended_witness :
    (∀ t ∈ [({ type := .TOPUP, amount := 10, status := .COMPLETED,
               referenceId := "e1", seq := 5 } : Txn),
            { type := .PAYMENT, amount := 20, status := .COMPLETED,
              referenceId := "e2", seq := 5 },
            { type := .TOPUP, amount := 30, status := .COMPLETED,
              referenceId := "e3", seq := 5 }], t.seq = 5) ∧
    sortTransactions
        [{ type := .TOPUP, amount := 10, status := .COMPLETED,
           referenceId := "e1", seq := 5 },
         { type := .PAYMENT, amount := 20, status := .COMPLETED,
           referenceId := "e2", seq := 5 },
         { type := .TOPUP, amount := 30, status := .COMPLETED,
           referenceId := "e3", seq := 5 }] =
      [{ type := .TOPUP, amount := 10, status := .COMPLETED,
         referenceId := "e1", seq := 5 },
       { type := .PAYMENT, amount := 20, status := .COMPLETED,
         referenceId := "e2", seq := 5 },
       { type := .TOPUP, amount := 30, status := .COMPLETED,
         referenceId := "e3", seq := 5 }] :=
  ⟨by decide,
   (claim_C7_history_order_amended
      [{ type := .TOPUP, amount := 10, status := .COMPLETED,
         referenceId := "e1", seq := 5 },
       { type := .PAYMENT, amount := 20, status := .COMPLETED,
         referenceId := "e2", seq := 5 },
       { type := .TOPUP, amount := 30, status := .COMPLETED,
         referenceId := "e3", seq := 5 }] 5 emptyWallet 50).2.1 (by decide)⟩

theorem topUpCallback_amounts (w : Wallet) (r sig : String) :
    ∀ t' ∈ (handleTopUpCallback w r sig).1.transactions,
      ∃ t ∈ w.transactions, t'.amount = t.amount := by
  unfold handleTopUpCallback
  cases hfind : w.transactions.find? (fun t => t.referenceId == r) with
  | none => exact fun t' ht' => ⟨t', ht', rfl⟩
  | some tx =>
    simp only []
    split_ifs with h1 h2 h3
    · intro t' ht'
      rcases mem_updateFirst ht' with h | ⟨u, hu, _, rfl⟩
      · exact ⟨t', h, rfl⟩
      · exact ⟨u, hu, rfl⟩
    · intro t' ht'
      rcases mem_updateFirst ht' with h | ⟨u, hu, _, rfl⟩
      · exact ⟨t', h, rfl⟩
      · exact ⟨u, hu, rfl⟩
    · exact fun t' ht' => ⟨t', ht', rfl⟩
    · exact fun t' ht' => ⟨t', ht', rfl⟩

theorem cashOutCallback_amounts (w : Wallet) (r sig : String) :
    ∀ t' ∈ (handleCashOutCallback w r sig).1.transactions,
      ∃ t ∈ w.transactions, t'.amount = t.amount := by
  unfold handleCashOutCallback
  cases hfind : w.transactions.find?
      (fun t => t.referenceId == r && t.type == TxnType.CASHOUT) with
  | none => exact fun t' ht' => ⟨t', ht', rfl⟩
  | some tx =>
    simp only []
    split_ifs with h1 h2 h3
    · intro t' ht'
      rcases mem_updateFirst ht' with h | ⟨u, hu, _, rfl⟩
      · exact ⟨t', h, rfl⟩
      · exact ⟨u, hu, rfl⟩
    · intro t' ht'
      rcases mem_updateFirst ht' with h | ⟨u, hu, _, rfl⟩
      · exact ⟨t', h, rfl⟩
      · exact ⟨u, hu, rfl⟩
    · exact fun t' ht' => ⟨t', ht', rfl⟩
    · exact fun t' ht' => ⟨t', ht', rfl⟩

theorem applyOp_amounts_pos {w : Wallet} {op : WalletOp}
    (h : ∀ t ∈ w.transactions, 0 < t.amount) :
    ∀ t ∈ (applyOp w op).transactions, 0 < t.amount := by
  cases op with
  | opAddFunds a ty r s =>
    show ∀ t ∈ (orUnchanged w (addFunds w a ty r s)).transactions, 0 < t.amount
    unfold addFunds
    by_cases ha : a ≤ 0
    · rw [if_pos ha]; exact h
    · rw [if_neg ha]
      intro t ht
      rcases List.mem_append.mp ht with h1 | h1
      · exact h t h1
      · simp at h1
        subst h1
        show (0 : Int) < a
        omega
  | opDeductFunds a ty r s =>
    show ∀ t ∈ (orUnchanged w (deductFunds w a ty r s)).transactions, 0 < t.amount
    unfold deductFunds
    by_cases ha : a ≤ 0
    · rw [if_pos ha]; exact h
    · rw [if_neg ha]
      by_cases hb : w.balance < a
      · rw [if_pos hb]; exact h
      · rw [if_neg hb]
        intro t ht
        rcases List.mem_append.mp ht with h1 | h1
        · exact h t h1
        · simp at h1
          subst h1
          show (0 : Int) < a
          omega
  | opRequestCashOut a r s =>
    show ∀ t ∈ (orUnchanged w (requestCashOut w a r s)).transactions, 0 < t.amount
    unfold requestCashOut
    by_cases ha : a ≤ 0
    · rw [if_pos ha]; exact h
    · rw [if_neg ha]
      by_cases hb : w.balance < a
      · rw [if_pos hb]; exact h
      · rw [if_neg hb]
        intro t ht
        rcases List.mem_append.mp ht with h1 | h1
        · exact h t h1
        · simp at h1
          subst h1
          show (0 : Int) < a
          omega
  | opCreatePendingTopUp a r s =>
    show ∀ t ∈ (orUnchanged w (createPendingTopUp w a r s)).transactions,
      0 < t.amount
    unfold createPendingTopUp
    by_cases ha : a < 1
    · rw [if_pos ha]; exact h
    · rw [if_neg ha]
      intro t ht
      rcases List.mem_append.mp ht with h1 | h1
      · exact h t h1
      · simp at h1
        subst h1
        show (0 : Int) < a
        omega
  | opTopUpCallback r sig =>
    intro t ht
    obtain ⟨u, hu, he⟩ := topUpCallback_amounts w r sig t ht
    rw [he]
    exact h u hu
  | opCashOutCallback r sig =>
    intro t ht
    obtain ⟨u, hu, he⟩ := cashOutCallback_amounts w r sig t ht
    rw [he]
    exact h u hu

/-- C8.  Every transaction entry ever stored by an engine operation has a
strictly positive amount — the direction of the balance effect is implied by
the entry type, never encoded by a stored negative amount.  For the canonical
model (`src/models/Wallet.js` operations and the reconciliation callbacks)
this holds over every operation sequence from a fresh wallet.  The legacy
variant model writes deductions with `amount: -amount`, but its schema's
`min: 0` validator runs at `this.save()` and rejects every such write: for a
positive amount the save throws a ValidationError and persists nothing, and a
non-positive amount is rejected before the push — so the variant's
`deductFunds`/`requestCashOut` never store an entry at all, and in particular
never a negative-amount one. -/
theorem claim_C8_positive_amounts (ops : List WalletOp) :
    (∀ t ∈ (runOps emptyWallet ops).transactions, 0 < t.amount) ∧
    (∀ (w : Wallet) (amount : Int) (ty : TxnType) (refId : String) (seq : Nat),
      ∃ e, VariantWallet.deductFunds w amount ty refId seq = .error e) ∧
    (∀ (w : Wallet) (amount : Int) (refId : String) (seq : Nat),
      ∃ e, VariantWallet.requestCashOut w amount refId seq = .error e) := by
  refine ⟨?_, ?_, ?_⟩
  · have hgen : ∀ w : Wallet, (∀ t ∈ w.transactions, 0 < t.amount) →
        ∀ t ∈ (runOps w ops).transactions, 0 < t.amount := by
      induction ops with
      | nil => exact fun w h => h
      | cons op ops ih => exact fun w h => ih _ (applyOp_amounts_pos h)
    refine hgen emptyWallet ?_
    intro t ht
    simp [emptyWallet] at ht
  · intro w amount ty refId seq
    unfold VariantWallet.deductFunds
    by_cases ha : amount ≤ 0
    · exact ⟨.InvalidAmount, by rw [if_pos ha]⟩
    · rw [if_neg ha]
      by_cases hb : w.balance < amount
      · exact ⟨.InsufficientBalance, by rw [if_pos hb]⟩
      · rw [if_neg hb]
        unfold VariantWallet.save
        have hneg : ¬∀ t ∈ w.transactions ++
            [({ type := ty, amount := -amount, status := .COMPLETED,
                referenceId := refId, seq := seq } : Txn)], 0 ≤ t.amount := by
          push_neg
          refine ⟨_, List.mem_append.mpr (Or.inr (List.mem_cons_self _ _)), ?_⟩
          show -amount < 0
          omega
        exact ⟨.ValidationError, by rw [if_neg hneg]⟩
  · intro w amount refId seq
    unfold VariantWallet.requestCashOut
    by_cases ha : amount ≤ 0
    · exact ⟨.InvalidAmount, by rw [if_pos ha]⟩
    · rw [if_neg ha]
      by_cases hb : w.balance < amount
      · exact ⟨.InsufficientBalance, by rw [if_pos hb]⟩
      · rw [if_neg hb]
        unfold VariantWallet.save
        have hneg : ¬∀ t ∈ w.transactions ++
            [({ type := .CASHOUT, amount := -amount, status := .PENDING,
                referenceId := refId, seq := seq } : Txn)], 0 ≤ t.amount := by
          push_neg
          refine ⟨_, List.mem_append.mpr (Or.inr (List.mem_cons_self _ _)), ?_⟩
          show -amount < 0
          omega
        exact ⟨.ValidationError, by rw [if_neg hneg]⟩

/-- Witness for C8: the 500 top-up credit entry stored by a concrete run has
a positive amount, and the variant `deductFunds 50` on a balance-100 wallet
fails (its negative-amount entry is rejected by the `min: 0` validation, so
nothing is stored) — concretely, with a ValidationError. -/
theorem claim_C8_positive_amounts_witness :
    (({ type := .TOPUP, amount := 500, status := .COMPLETED,
        referenceId := "t1", seq := 1 } : Txn) ∈
        (runOps emptyWallet
          [WalletOp.opAddFunds 500 .TOPUP "t1" 1]).transactions ∧
      (0 : Int) <
        ({ type := .TOPUP, amount := 500, status := .COMPLETED,
           referenceId := "t1", seq := 1 } : Txn).amount) ∧
    (∃ e, VariantWallet.deductFunds { balance := 100, transactions := [] } 50
        .PAYMENT "p1" 1 = .error e) ∧
    VariantWallet.deductFunds { balance := 100, transactions := [] } 50
        .PAYMENT "p1" 1 = .error .ValidationError :=
  ⟨⟨by decide,
    (claim_C8_positive_amounts [WalletOp.opAddFunds 500 .TOPUP "t1" 1]).1
      { type := .TOPUP, amount := 500, status := .COMPLETED,
        referenceId := "t1", seq := 1 } (by decide)⟩,
   (claim_C8_positive_amounts []).2.1 { balance := 100, transactions := [] }
     50 .PAYMENT "p1" 1,
   by rfl⟩

end EyyBack
